import Mathlib

/-!
Verification of the package-identity normalization layer of osv-scanner
(`internal/imodels/imodels.go`), as a shallow embedding in Lean 4.

The embedding follows the Go source. Helper packages of the repository that
are referenced but whose source is not part of the slice
(`internal/imodels/ecosystem`, `internal/utility/semverlike`,
`internal/utility/purl`) are modelled from the specification, each marked
`Modelled from the spec:` in its doc comment. The metadata type assertions of
the Go source become a closed sum type; the extractor reference becomes a
record of its identifier string and the package-URL string it would render
for the wrapped inventory.
-/

/-- Character-list splitting on a single separator character, used to embed
`strings.Cut` and dotted-version splitting with kernel-reducible recursion. -/
def splitOnCharAux (c : Char) : List Char → List Char → List (List Char)
  | [], acc => [acc.reverse]
  | d :: rest, acc =>
    if d = c then acc.reverse :: splitOnCharAux c rest []
    else splitOnCharAux c rest (d :: acc)

def splitOnChar (c : Char) (l : List Char) : List (List Char) :=
  splitOnCharAux c l []

def joinWithChar (c : Char) : List (List Char) → List Char
  | [] => []
  | [x] => x
  | x :: rest => x ++ c :: joinWithChar c rest

/-- ASCII lower-casing of a string (embeds `strings.ToLower` on the ASCII
identifiers this layer handles). -/
def lowerAscii (s : String) : String :=
  String.mk (s.data.map Char.toLower)

/-- Embeds `strings.Cut(s, ":")`: the part before the first colon and the
part after it. -/
def cutColon (s : String) : String × String :=
  match splitOnChar ':' s.data with
  | [] => (s, "")
  | x :: rest => (String.mk x, String.mk (joinWithChar ':' rest))

/-- Embeds `models.PackageInfo`: the (name, version, ecosystem) triple produced by
parsing a package-URL; the override identity cached for SBOM records. -/
structure MPackageInfo where
  name : String
  version : String
  ecosystem : String
deriving DecidableEq, Repr

/-- The metadata payload shapes that `imodels.go` inspects by type assertion,
as a closed sum: Java archive (`archive.Metadata`), Debian dpkg
(`dpkg.Metadata`), Alpine apk (`apk.Metadata`), RPM (`rpm.Metadata`), a
payload implementing the `scalibrosv.DepGroups` capability, and anything
else. -/
inductive Metadata where
  | noMetadata
  | archiveMeta (artifactID groupID : String)
  | dpkgMeta (packageName sourceName : String)
  | apkMeta (packageName originName : String)
  | rpmMeta (packageName : String)
  | depGroupsMeta (groups : List String)
deriving DecidableEq, Repr

/-- The producing extractor, reduced to what `imodels.go` reads from it: its
identifier (`Extractor.Name()`) and the package-URL string that
`Extractor.ToPURL` renders for the wrapped inventory (`Option.none` when
`ToPURL` returns nil). -/
structure ExtractorRef where
  name : String
  toPURL : Option String
deriving DecidableEq, Repr

structure SourceCodeIdentifier where
  commit : String
deriving DecidableEq, Repr

/-- Embeds `extractor.Inventory`: the raw record. `ecosystemStr` is the value of
`Inventory.Ecosystem()`, which the external scalibr library derives from the
extractor. -/
structure Inventory where
  name : String
  version : String
  ecosystemStr : String
  locations : List String
  sourceCode : Option SourceCodeIdentifier
  metadata : Metadata
  extractor : Option ExtractorRef
deriving DecidableEq, Repr

/-- Embeds `imodels.PackageInfo`: the identity resolver, wrapping one raw inventory
record plus the optional purl-derived override cache. -/
structure PackageInfo where
  purlCache : Option MPackageInfo
  inventory : Inventory
deriving DecidableEq, Repr

/-- Modelled from the spec: the base ecosystem tags recognised by
`ecosystem.Parse`; the spec names Go, PyPI, Debian-family, Alpine-family and
RPM-family ecosystems among the recognised set. Only membership vs.
non-membership is observable (it decides whether a warning is produced). -/
def knownEcosystems : List String :=
  ["Go", "PyPI", "npm", "Maven", "crates.io", "RubyGems", "NuGet",
   "Packagist", "Debian", "Alpine", "Red Hat"]

/-- Embeds `ecosystem.Parsed`: a base ecosystem tag plus an optional suffix (such as
a Linux distribution release). -/
structure Parsed where
  ecosystem : String
  suffix : String
deriving DecidableEq, Repr

/-- Modelled from the spec: `ecosystem.Parse` splits the ecosystem string
into a base tag and suffix at the first colon and reports an error for an
unrecognised base tag while still returning the best-effort parsed value
(parsing never fails fatally). -/
def ecosystemParse (s : String) : Parsed × Option String :=
  let cut := cutColon s
  if knownEcosystems.contains cut.fst then
    (⟨cut.fst, cut.snd⟩, Option.none)
  else
    (⟨cut.fst, cut.snd⟩, Option.some ("unrecognised ecosystem " ++ s))

/-- The ecosystem string the resolver feeds to `ecosystem.Parse`: the
override cache's ecosystem when present, else the raw record's. -/
def PackageInfo.effectiveEcosystemString (pkg : PackageInfo) : String :=
  match pkg.purlCache with
  | Option.some pc => pc.ecosystem
  | Option.none => pkg.inventory.ecosystemStr

/-- Embeds `PackageInfo.Ecosystem`, with the warning it would log made explicit as a
list of log lines: parse the effective ecosystem string; on a parse error log
a warning; in all cases return the parsed value. -/
def PackageInfo.EcosystemWithLog (pkg : PackageInfo) : Parsed × List String :=
  let r := ecosystemParse pkg.effectiveEcosystemString
  match r.snd with
  | Option.some msg => (r.fst, ["Warning: " ++ msg])
  | Option.none => (r.fst, [])

def PackageInfo.Ecosystem (pkg : PackageInfo) : Parsed :=
  (pkg.EcosystemWithLog).fst

/-- PEP 503 separator characters, the character class of the Go regex
`[-_.]+`. -/
def isSeparatorChar (c : Char) : Bool :=
  c = '-' ∨ c = '_' ∨ c = '.'

/-- Collapse every maximal run of separator characters into a single dash:
`ReplaceAllLiteralString` of the regex `[-_.]+` with `"-"`. The boolean
records whether the previous character was part of a separator run. -/
def collapseRunsAux : Bool → List Char → List Char
  | _, [] => []
  | prevSep, c :: rest =>
    if isSeparatorChar c then
      if prevSep then collapseRunsAux true rest
      else '-' :: collapseRunsAux true rest
    else c :: collapseRunsAux false rest

def replaceSeparatorRuns (s : String) : String :=
  String.mk (collapseRunsAux false s.data)

/-- The PyPI name normalization of `PackageInfo.Name`:
`strings.ToLower(regex [-_.]+ replaced by "-")`. -/
def pep503Normalize (s : String) : String :=
  lowerAscii (replaceSeparatorRuns s)

/-- Embeds `PackageInfo.Name`: the canonical-name resolution chain of the source.
The sequential type assertions on the metadata payload become one match: a
shape whose guard fails falls through every remaining assertion (they test
for other shapes) and reaches the raw-name fallback. -/
def PackageInfo.Name (pkg : PackageInfo) : String :=
  match pkg.purlCache with
  | Option.some pc => pc.name
  | Option.none =>
    if pkg.Ecosystem.ecosystem = "Go" ∧ pkg.inventory.name = "go" then
      "stdlib"
    else if pkg.Ecosystem.ecosystem = "PyPI" then
      pep503Normalize pkg.inventory.name
    else
      match pkg.inventory.metadata with
      | Metadata.archiveMeta aid gid =>
        if aid ≠ "" ∧ gid ≠ "" then gid ++ ":" ++ aid else pkg.inventory.name
      | Metadata.dpkgMeta _ sn =>
        if sn ≠ "" then sn else pkg.inventory.name
      | Metadata.apkMeta _ orig =>
        if orig ≠ "" then orig else pkg.inventory.name
      | _ => pkg.inventory.name

/-- Modelled from the spec: `semverlike.ParseSemverLikeVersion(v, 3)` parses
the raw version as a dotted numeric sequence, keeping at most 3 leading
all-numeric components. -/
def parseNumericComponents (s : String) (max : Nat) : List Nat :=
  (((splitOnChar '.' s.data).takeWhile
      (fun piece => piece ≠ [] ∧ piece.all Char.isDigit)).take max).map
    (fun piece => piece.foldl (fun n c => 10 * n + (c.toNat - 48)) 0)

/-- Embeds `Components.Fetch(i)`. -/
def fetchComponent (l : List Nat) (i : Nat) : Nat :=
  l.getD i 0

/-- Embeds `PackageInfo.Version`: override version when cached, else the Go-stdlib
two-component patch synthesis, else the raw version. -/
def PackageInfo.Version (pkg : PackageInfo) : String :=
  match pkg.purlCache with
  | Option.some pc => pc.version
  | Option.none =>
    if pkg.Ecosystem.ecosystem = "Go" ∧ pkg.Name = "stdlib" then
      let v := parseNumericComponents pkg.inventory.version 3
      if v.length = 2 then
        toString (fetchComponent v 0) ++ "." ++ toString (fetchComponent v 1)
          ++ ".99"
      else pkg.inventory.version
    else pkg.inventory.version

def PackageInfo.Location (pkg : PackageInfo) : String :=
  match pkg.inventory.locations with
  | [] => ""
  | l :: _ => l

def PackageInfo.Commit (pkg : PackageInfo) : String :=
  match pkg.inventory.sourceCode with
  | Option.some sc => sc.commit
  | Option.none => ""

/-- The extractor identifier strings; their concrete values belong to the
external osv-scalibr library and the repository's own extractors, only their
distinctness and set membership are observable here. -/
def spdxExtractorName : String := "sbom/spdx"

def cdxExtractorName : String := "sbom/cdx"

def gitrepoExtractorName : String := "vcs/gitrepo"

def dpkgExtractorName : String := "os/dpkg"

def apkExtractorName : String := "os/apk"

def rpmExtractorName : String := "os/rpm"

def nodemodulesExtractorName : String := "javascript/nodemodules"

def gobinaryExtractorName : String := "go/gobinary"

def archiveExtractorName : String := "java/archive"

def wheeleggExtractorName : String := "python/wheelegg"

def sbomExtractors : List String := [spdxExtractorName, cdxExtractorName]

def gitExtractors : List String := [gitrepoExtractorName]

def osExtractors : List String :=
  [dpkgExtractorName, apkExtractorName, rpmExtractorName]

def artifactExtractors : List String :=
  [nodemodulesExtractorName, gobinaryExtractorName, archiveExtractorName,
   wheeleggExtractorName]

/-- Embeds `models.SourceType`: the closed source-category enumeration. -/
inductive SourceType where
  | unknown
  | osPackage
  | sbom
  | git
  | artifact
  | projectPackage
deriving DecidableEq, Repr

/-- Embeds `PackageInfo.SourceType`: classify by the producing extractor's
identifier against the four static sets. -/
def PackageInfo.SourceType (pkg : PackageInfo) : SourceType :=
  match pkg.inventory.extractor with
  | Option.none => SourceType.unknown
  | Option.some ext =>
    if osExtractors.contains ext.name then SourceType.osPackage
    else if sbomExtractors.contains ext.name then SourceType.sbom
    else if gitExtractors.contains ext.name then SourceType.git
    else if artifactExtractors.contains ext.name then SourceType.artifact
    else SourceType.projectPackage

/-- Embeds `PackageInfo.DepGroups`: the dependency groups of a payload implementing
the capability, else the empty list. -/
def PackageInfo.DepGroups (pkg : PackageInfo) : List String :=
  match pkg.inventory.metadata with
  | Metadata.depGroupsMeta groups => groups
  | _ => []

/-- Embeds `PackageInfo.OSPackageName`: the binary package-name field of the three
OS metadata shapes, else empty. -/
def PackageInfo.OSPackageName (pkg : PackageInfo) : String :=
  match pkg.inventory.metadata with
  | Metadata.apkMeta pn _ => pn
  | Metadata.dpkgMeta pn _ => pn
  | Metadata.rpmMeta pn => pn
  | _ => ""

/-- Embeds `imodels.FromInventory`, parameterized by the purl parser
(`purl.ToPackage`, a repository package outside the slice): the parser
returns its best-effort package triple together with an error flag, and as in
the source (`purlCache, _ := purl.ToPackage(...)`) the flag is discarded and
the returned triple is cached whenever the extractor rendered a URL. -/
def FromInventory (toPackage : String → MPackageInfo × Bool)
    (inv : Inventory) : PackageInfo :=
  let pi : PackageInfo := ⟨Option.none, inv⟩
  if pi.SourceType = SourceType.sbom then
    match inv.extractor with
    | Option.some ext =>
      match ext.toPURL with
      | Option.some purlStr => ⟨Option.some (toPackage purlStr).fst, inv⟩
      | Option.none => pi
    | Option.none => pi
  else pi

/-- Embeds `PackageScanResult`: one resolved package with its enrichment results. -/
structure PackageScanResult where
  packageInfo : PackageInfo
  vulnerabilities : List String
  licenses : List String
deriving Repr

/-- Whether a metadata payload carries a name override in the resolution
chain of `PackageInfo.Name` (a Java-archive pair with both parts non-empty, a
Debian source name, or an Alpine origin name). -/
def metadataOverridesName : Metadata → Bool
  | Metadata.archiveMeta aid gid => !(aid == "") && !(gid == "")
  | Metadata.dpkgMeta _ sn => !(sn == "")
  | Metadata.apkMeta _ orig => !(orig == "")
  | _ => false

/-- The spec's description of `OSPackageName`: the binary package-name field
of the three OS metadata shapes, the empty string for every other payload. -/
def osPackageNameSpec : Metadata → String
  | Metadata.apkMeta pn _ => pn
  | Metadata.dpkgMeta pn _ => pn
  | Metadata.rpmMeta pn => pn
  | _ => ""

/-- Applicability guard of branch `i` of the canonical-name resolution chain,
transcribed from the six branches of `PackageInfo.Name` in their source
order: override cache, Go module self-reference, PyPI normalization,
Java-archive pair, Debian source name or Alpine origin name, raw-name
fallback. -/
def nameGuard (pkg : PackageInfo) : Nat → Prop
  | 0 => pkg.purlCache ≠ Option.none
  | 1 => pkg.Ecosystem.ecosystem = "Go" ∧ pkg.inventory.name = "go"
  | 2 => pkg.Ecosystem.ecosystem = "PyPI"
  | 3 =>
    match pkg.inventory.metadata with
    | Metadata.archiveMeta aid gid => aid ≠ "" ∧ gid ≠ ""
    | _ => False
  | 4 =>
    match pkg.inventory.metadata with
    | Metadata.dpkgMeta _ sn => sn ≠ ""
    | Metadata.apkMeta _ orig => orig ≠ ""
    | _ => False
  | 5 => True
  | _ => False

/-- The value branch `i` of the canonical-name resolution chain returns when
its guard fires. -/
def nameValue (pkg : PackageInfo) : Nat → String
  | 0 => (pkg.purlCache.getD ⟨"", "", ""⟩).name
  | 1 => "stdlib"
  | 2 => pep503Normalize pkg.inventory.name
  | 3 =>
    match pkg.inventory.metadata with
    | Metadata.archiveMeta aid gid => gid ++ ":" ++ aid
    | _ => ""
  | 4 =>
    match pkg.inventory.metadata with
    | Metadata.dpkgMeta _ sn => sn
    | Metadata.apkMeta _ orig => orig
    | _ => ""
  | _ => pkg.inventory.name

/-- A concrete SBOM-derived inventory whose extractor renders a package-URL
string. -/
def sbomTestInv : Inventory :=
  { name := "foo", version := "1.0.0", ecosystemStr := "npm",
    locations := [], sourceCode := Option.none,
    metadata := Metadata.noMetadata,
    extractor := Option.some
      { name := spdxExtractorName,
        toPURL := Option.some "pkg:badtype/foo@1.0.0" } }

/-- A purl parser that fails on every input, returning the zero-valued
triple together with the error flag (the Go convention for
`purl.ToPackage`). -/
def failingToPackage : String → MPackageInfo × Bool :=
  fun _ => (⟨"", "", ""⟩, true)

/-- A purl parser that succeeds on every input with a fixed triple. -/
def okToPackage : String → MPackageInfo × Bool :=
  fun _ => (⟨"left-pad", "1.3.0", "npm"⟩, false)

/-- A concrete record with no producing extractor. -/
def noExtractorPkg : PackageInfo :=
  ⟨Option.none,
   { name := "thing", version := "0.1", ecosystemStr := "npm",
     locations := [], sourceCode := Option.none,
     metadata := Metadata.noMetadata, extractor := Option.none }⟩

/-- A concrete record whose extractor identifier matches none of the four
static sets. -/
def lockfilePkg : PackageInfo :=
  ⟨Option.none,
   { name := "thing", version := "0.1", ecosystemStr := "npm",
     locations := [], sourceCode := Option.none,
     metadata := Metadata.noMetadata,
     extractor := Option.some
       { name := "javascript/packagelockjson", toPURL := Option.none } }⟩

/-- A concrete PyPI record with a styled raw name. -/
def pypiPkgA : PackageInfo :=
  ⟨Option.none,
   { name := "My.Package__Name", version := "1.0", ecosystemStr := "PyPI",
     locations := [], sourceCode := Option.none,
     metadata := Metadata.noMetadata, extractor := Option.none }⟩

/-- A concrete PyPI record with the plain spelling of the same name. -/
def pypiPkgB : PackageInfo :=
  ⟨Option.none,
   { name := "my-package-name", version := "1.0", ecosystemStr := "PyPI",
     locations := [], sourceCode := Option.none,
     metadata := Metadata.noMetadata, extractor := Option.none }⟩

/-- A concrete Go record whose raw name is the module self-reference
token. -/
def goModulePkg : PackageInfo :=
  ⟨Option.none,
   { name := "go", version := "1.21.3", ecosystemStr := "Go",
     locations := [], sourceCode := Option.none,
     metadata := Metadata.noMetadata, extractor := Option.none }⟩

/-- A concrete Go stdlib record with a two-component raw version. -/
def goStdlibPkg : PackageInfo :=
  ⟨Option.none,
   { name := "stdlib", version := "1.19", ecosystemStr := "Go",
     locations := [], sourceCode := Option.none,
     metadata := Metadata.noMetadata, extractor := Option.none }⟩

/-- A concrete Go stdlib record with a three-component raw version. -/
def goStdlibPkg3 : PackageInfo :=
  ⟨Option.none,
   { name := "stdlib", version := "1.19.4", ecosystemStr := "Go",
     locations := [], sourceCode := Option.none,
     metadata := Metadata.noMetadata, extractor := Option.none }⟩

/-- A concrete Debian record whose dpkg metadata carries distinct source and
binary names. -/
def debianPkg : PackageInfo :=
  ⟨Option.none,
   { name := "foo", version := "1.2-3", ecosystemStr := "Debian:12",
     locations := [], sourceCode := Option.none,
     metadata := Metadata.dpkgMeta "foo" "foo-src",
     extractor := Option.some
       { name := dpkgExtractorName, toPURL := Option.none } }⟩

/-- A concrete record with an unrecognisable ecosystem string. -/
def badEcosystemPkg : PackageInfo :=
  ⟨Option.none,
   { name := "thing", version := "0.1", ecosystemStr := "NotAnEcosystem:x",
     locations := [], sourceCode := Option.none,
     metadata := Metadata.noMetadata, extractor := Option.none }⟩

theorem ecosystem_eq_parse_fst (pkg : PackageInfo) :
    pkg.Ecosystem = (ecosystemParse pkg.effectiveEcosystemString).fst := by
  unfold PackageInfo.Ecosystem PackageInfo.EcosystemWithLog
  rcases h : (ecosystemParse pkg.effectiveEcosystemString).snd <;> simp [h]

theorem firesAt_unique (G : Nat → Prop) (i k : Nat) (hgi : G i)
    (hi : ∀ j, j < i → ¬ G j) (hgk : G k) (hk : ∀ j, j < k → ¬ G j) :
    k = i := by
  rcases lt_trichotomy k i with h | h | h
  · exact absurd hgk (hi k h)
  · exact h
  · exact absurd hgi (hk i h)

theorem name_eq_raw_of_no_override (pkg : PackageInfo)
    (hpc : pkg.purlCache = Option.none)
    (hgo : ¬(pkg.Ecosystem.ecosystem = "Go" ∧ pkg.inventory.name = "go"))
    (hpy : pkg.Ecosystem.ecosystem ≠ "PyPI")
    (hmeta : metadataOverridesName pkg.inventory.metadata = false) :
    pkg.Name = pkg.inventory.name := by
  rcases pkg with ⟨pc, inv⟩
  cases pc with
  | some pc0 => exact absurd hpc (by simp)
  | none =>
    simp only [PackageInfo.Name, if_neg hgo, if_neg hpy]
    cases hm : inv.metadata <;>
      simp_all [metadataOverridesName, PackageInfo.Name]

/-- C9: the override cache is consulted only by Name, Ecosystem and Version:
Location, Commit, SourceType, DepGroups and OSPackageName return the same
values with and without a populated cache. -/
theorem override_cache_frame (inv : Inventory) (pc : MPackageInfo) :
    (PackageInfo.mk (Option.some pc) inv).Location
      = (PackageInfo.mk Option.none inv).Location ∧
    (PackageInfo.mk (Option.some pc) inv).Commit
      = (PackageInfo.mk Option.none inv).Commit ∧
    (PackageInfo.mk (Option.some pc) inv).SourceType
      = (PackageInfo.mk Option.none inv).SourceType ∧
    (PackageInfo.mk (Option.some pc) inv).DepGroups
      = (PackageInfo.mk Option.none inv).DepGroups ∧
    (PackageInfo.mk (Option.some pc) inv).OSPackageName
      = (PackageInfo.mk Option.none inv).OSPackageName :=
  ⟨rfl, rfl, rfl, rfl, rfl⟩

/-- C6: a Go-ecosystem record without an override identity whose raw name is
the module self-reference token "go" resolves to the standard-library
sentinel "stdlib", for every raw version value. -/
theorem go_module_name_is_stdlib (pkg : PackageInfo)
    (hpc : pkg.purlCache = Option.none)
    (hgo : pkg.Ecosystem.ecosystem = "Go")
    (hname : pkg.inventory.name = "go") :
    pkg.Name = "stdlib" := by
  rcases pkg with ⟨pc, inv⟩
  cases pc with
  | some pc0 => exact absurd hpc (by simp)
  | none =>
    have h : (PackageInfo.mk Option.none inv).Ecosystem.ecosystem = "Go"
        ∧ inv.name = "go" := ⟨hgo, hname⟩
    simp only [PackageInfo.Name, if_pos h]

theorem go_module_name_is_stdlib_witness :
    goModulePkg.purlCache = Option.none ∧ goModulePkg.Name = "stdlib" :=
  ⟨rfl, go_module_name_is_stdlib goModulePkg rfl (by decide) rfl⟩

/-- C5: for PyPI-ecosystem records without an override identity, Name is
invariant under restyling of the raw name (letter casing and runs of the
characters dash, underscore, dot, each run collapsing to a single dash):
whenever two raw names have the same PEP 503 normal form, Name returns equal
strings. -/
theorem pypi_name_normalization_invariance (pkgA pkgB : PackageInfo)
    (hpcA : pkgA.purlCache = Option.none)
    (hpcB : pkgB.purlCache = Option.none)
    (hecoA : pkgA.Ecosystem.ecosystem = "PyPI")
    (hecoB : pkgB.Ecosystem.ecosystem = "PyPI")
    (hstyle : pep503Normalize pkgA.inventory.name
      = pep503Normalize pkgB.inventory.name) :
    pkgA.Name = pkgB.Name := by
  have hA : pkgA.Name = pep503Normalize pkgA.inventory.name := by
    rcases pkgA with ⟨pc, inv⟩
    cases pc with
    | some pc0 => exact absurd hpcA (by simp)
    | none =>
      have hne : ¬((PackageInfo.mk Option.none inv).Ecosystem.ecosystem = "Go"
          ∧ inv.name = "go") := by
        intro h
        rw [h.1] at hecoA
        exact absurd hecoA (by decide)
      simp only [PackageInfo.Name, if_neg hne, if_pos hecoA]
  have hB : pkgB.Name = pep503Normalize pkgB.inventory.name := by
    rcases pkgB with ⟨pc, inv⟩
    cases pc with
    | some pc0 => exact absurd hpcB (by simp)
    | none =>
      have hne : ¬((PackageInfo.mk Option.none inv).Ecosystem.ecosystem = "Go"
          ∧ inv.name = "go") := by
        intro h
        rw [h.1] at hecoB
        exact absurd hecoB (by decide)
      simp only [PackageInfo.Name, if_neg hne, if_pos hecoB]
  rw [hA, hB, hstyle]

theorem pypi_name_normalization_invariance_witness :
    pypiPkgA.inventory.name = "My.Package__Name" ∧
    pypiPkgB.inventory.name = "my-package-name" ∧
    pypiPkgA.Name = pypiPkgB.Name :=
  ⟨rfl, rfl,
   pypi_name_normalization_invariance pypiPkgA pypiPkgB rfl rfl
     (by decide) (by decide) (by decide)⟩

/-- C8: Ecosystem returns a parsed value for every ecosystem string; a parse
failure is recovered locally as a logged warning while the best-effort parsed
value is still returned, and the failure is never propagated (the accessor's
return carries no error). -/
theorem ecosystem_parse_failure_recovered (pkg : PackageInfo) :
    pkg.Ecosystem = (ecosystemParse pkg.effectiveEcosystemString).fst ∧
    (∀ msg, (ecosystemParse pkg.effectiveEcosystemString).snd
        = Option.some msg →
      pkg.EcosystemWithLog
        = ((ecosystemParse pkg.effectiveEcosystemString).fst,
           ["Warning: " ++ msg])) := by
  refine ⟨ecosystem_eq_parse_fst pkg, ?_⟩
  intro msg hmsg
  unfold PackageInfo.EcosystemWithLog
  simp [hmsg]

theorem ecosystem_parse_failure_recovered_witness :
    (ecosystemParse badEcosystemPkg.effectiveEcosystemString).snd
      = Option.some "unrecognised ecosystem NotAnEcosystem:x" ∧
    badEcosystemPkg.EcosystemWithLog
      = (⟨"NotAnEcosystem", "x"⟩,
         ["Warning: unrecognised ecosystem NotAnEcosystem:x"]) :=
  ⟨by decide,
   (ecosystem_parse_failure_recovered badEcosystemPkg).2
     "unrecognised ecosystem NotAnEcosystem:x" (by decide)⟩

/-- C4: SourceType is total: every record yields exactly one of the six
categories and never an error; a record with no producing extractor yields
unknown, and an extractor identifier matching none of the four static sets
yields projectPackage. -/
theorem sourceType_total (pkg : PackageInfo) :
    (pkg.SourceType = SourceType.osPackage ∨
     pkg.SourceType = SourceType.sbom ∨
     pkg.SourceType = SourceType.git ∨
     pkg.SourceType = SourceType.artifact ∨
     pkg.SourceType = SourceType.projectPackage ∨
     pkg.SourceType = SourceType.unknown) ∧
    (pkg.inventory.extractor = Option.none →
      pkg.SourceType = SourceType.unknown) ∧
    (∀ ext, pkg.inventory.extractor = Option.some ext →
      osExtractors.contains ext.name = false →
      sbomExtractors.contains ext.name = false →
      gitExtractors.contains ext.name = false →
      artifactExtractors.contains ext.name = false →
      pkg.SourceType = SourceType.projectPackage) := by
  refine ⟨?_, ?_, ?_⟩
  · cases h : pkg.SourceType <;> simp
  · intro hnone
    simp [PackageInfo.SourceType, hnone]
  · intro ext hext h1 h2 h3 h4
    simp at h1 h2 h3 h4
    simp [PackageInfo.SourceType, hext, h1, h2, h3, h4]

theorem sourceType_total_witness :
    noExtractorPkg.SourceType = SourceType.unknown ∧
    lockfilePkg.SourceType = SourceType.projectPackage :=
  ⟨(sourceType_total noExtractorPkg).2.1 rfl,
   (sourceType_total lockfilePkg).2.2
     { name := "javascript/packagelockjson", toPURL := Option.none }
     rfl (by decide) (by decide) (by decide) (by decide)⟩

/-- C7: a Debian-family record without an override identity whose dpkg
metadata carries a non-empty source name resolves Name to the source name
while OSPackageName returns the binary package name; in general OSPackageName
returns the binary package-name field of the Alpine, Debian-family or
RPM-family metadata shapes and the empty string for every other payload. -/
theorem debian_source_name_resolution (pkg : PackageInfo) (pn sn : String)
    (hpc : pkg.purlCache = Option.none)
    (hmeta : pkg.inventory.metadata = Metadata.dpkgMeta pn sn)
    (hsn : sn ≠ "")
    (heco : pkg.Ecosystem.ecosystem = "Debian") :
    pkg.Name = sn ∧ pkg.OSPackageName = pn ∧
    (∀ q : PackageInfo, q.OSPackageName = osPackageNameSpec q.inventory.metadata) := by
  refine ⟨?_, ?_, ?_⟩
  · rcases pkg with ⟨pc, inv⟩
    cases pc with
    | some pc0 => exact absurd hpc (by simp)
    | none =>
      have hgo : ¬((PackageInfo.mk Option.none inv).Ecosystem.ecosystem = "Go"
          ∧ inv.name = "go") := by
        intro h
        rw [h.1] at heco
        exact absurd heco (by decide)
      have hpy : ¬((PackageInfo.mk Option.none inv).Ecosystem.ecosystem
          = "PyPI") := by
        intro h
        rw [h] at heco
        exact absurd heco (by decide)
      simp only [PackageInfo.Name, if_neg hgo, if_neg hpy]
      simp only at hmeta
      rw [hmeta]
      simp [hsn]
  · rcases pkg with ⟨pc, inv⟩
    simp only at hmeta
    simp [PackageInfo.OSPackageName, hmeta]
  · intro q
    rcases q with ⟨qpc, qinv⟩
    cases hqm : qinv.metadata <;>
      simp [PackageInfo.OSPackageName, osPackageNameSpec, hqm]

theorem debian_source_name_resolution_witness :
    debianPkg.Name = "foo-src" ∧ debianPkg.OSPackageName = "foo" :=
  ⟨(debian_source_name_resolution debianPkg "foo" "foo-src" rfl rfl
      (by decide) (by decide)).1,
   (debian_source_name_resolution debianPkg "foo" "foo-src" rfl rfl
      (by decide) (by decide)).2.1⟩

/-- C3: for a Go-ecosystem record without an override identity whose
canonical name is the standard-library sentinel, a raw version with exactly
two numeric components gains a synthesized patch component of 99, while a raw
version with three components is returned unchanged. -/
theorem go_stdlib_version_synthesis (pkg : PackageInfo)
    (hpc : pkg.purlCache = Option.none)
    (hgo : pkg.Ecosystem.ecosystem = "Go")
    (hname : pkg.Name = "stdlib") :
    (∀ a b : Nat, parseNumericComponents pkg.inventory.version 3 = [a, b] →
      pkg.Version = toString a ++ "." ++ toString b ++ ".99") ∧
    ((parseNumericComponents pkg.inventory.version 3).length = 3 →
      pkg.Version = pkg.inventory.version) := by
  rcases pkg with ⟨pc, inv⟩
  cases pc with
  | some pc0 => exact absurd hpc (by simp)
  | none =>
    have hcond : (PackageInfo.mk Option.none inv).Ecosystem.ecosystem = "Go"
        ∧ (PackageInfo.mk Option.none inv).Name = "stdlib" := ⟨hgo, hname⟩
    constructor
    · intro a b hv
      simp only [PackageInfo.Version, if_pos hcond]
      simp only at hv
      rw [hv]
      simp [fetchComponent]
    · intro hlen
      simp only [PackageInfo.Version, if_pos hcond]
      simp only at hlen
      rw [hlen]
      simp

theorem go_stdlib_version_synthesis_witness :
    goStdlibPkg.inventory.version = "1.19" ∧
    goStdlibPkg.Version = "1.19.99" ∧
    goStdlibPkg3.inventory.version = "1.19.4" ∧
    goStdlibPkg3.Version = "1.19.4" :=
  ⟨rfl,
   (go_stdlib_version_synthesis goStdlibPkg rfl (by decide) (by decide)).1
     1 19 (by decide),
   rfl,
   (go_stdlib_version_synthesis goStdlibPkg3 rfl (by decide) (by decide)).2
     (by decide)⟩

/-- C10: the stdlib version synthesis keys on the canonical name, not on the
module self-reference token: a Go-ecosystem record without an override
identity whose raw name is literally "stdlib" (and whose metadata carries no
name override) also receives the synthesized patch component when its raw
version has exactly two numeric components. -/
theorem version_synthesis_keys_on_canonical_name (pkg : PackageInfo)
    (a b : Nat)
    (hpc : pkg.purlCache = Option.none)
    (hgo : pkg.Ecosystem.ecosystem = "Go")
    (hname : pkg.inventory.name = "stdlib")
    (hmeta : metadataOverridesName pkg.inventory.metadata = false)
    (hv : parseNumericComponents pkg.inventory.version 3 = [a, b]) :
    pkg.Version = toString a ++ "." ++ toString b ++ ".99" := by
  have hraw : pkg.Name = pkg.inventory.name := by
    refine name_eq_raw_of_no_override pkg hpc ?_ ?_ hmeta
    · intro h
      rw [hname] at h
      exact absurd h.2 (by decide)
    · intro h
      rw [h] at hgo
      exact absurd hgo (by decide)
  have hstd : pkg.Name = "stdlib" := by rw [hraw, hname]
  rcases pkg with ⟨pc, inv⟩
  cases pc with
  | some pc0 => exact absurd hpc (by simp)
  | none =>
    have hcond : (PackageInfo.mk Option.none inv).Ecosystem.ecosystem = "Go"
        ∧ (PackageInfo.mk Option.none inv).Name = "stdlib" := ⟨hgo, hstd⟩
    simp only [PackageInfo.Version, if_pos hcond]
    simp only at hv
    rw [hv]
    simp [fetchComponent]

theorem version_synthesis_keys_on_canonical_name_witness :
    goStdlibPkg.inventory.name = "stdlib" ∧
    goStdlibPkg.Version = "1.19.99" :=
  ⟨rfl,
   version_synthesis_keys_on_canonical_name goStdlibPkg 1 19 rfl
     (by decide) rfl rfl (by decide)⟩

/-- C1 counterexample: for an SBOM-derived record whose extractor renders a
package-URL string on which the purl parser fails, the override cache does
not stay empty — FromInventory discards the parse error and caches the
parser's returned triple — and Name then returns the cached (zero-valued)
name instead of applying the normal resolution rules, which would have
returned the raw name. -/
theorem sbom_purl_failure_cache_counterexample :
    (failingToPackage "pkg:badtype/foo@1.0.0").snd = true ∧
    (PackageInfo.mk Option.none sbomTestInv).SourceType = SourceType.sbom ∧
    ¬((FromInventory failingToPackage sbomTestInv).purlCache = Option.none) ∧
    (FromInventory failingToPackage sbomTestInv).Name ≠ sbomTestInv.name ∧
    (PackageInfo.mk Option.none sbomTestInv).Name = sbomTestInv.name := by
  refine ⟨rfl, rfl, ?_, ?_, rfl⟩
  · decide
  · decide

/-- C1 amended: whenever the SBOM extractor renders a package-URL string, the
override cache is populated with the purl parser's returned triple whether or
not the parser reports an error (the error is discarded), and Name, Version
and Ecosystem subsequently resolve from that cached triple; the cache stays
empty only when the extractor renders no URL at all. -/
theorem sbom_purl_cache_population (toPackage : String → MPackageInfo × Bool)
    (inv : Inventory) (ext : ExtractorRef)
    (hext : inv.extractor = Option.some ext)
    (hsbom : (PackageInfo.mk Option.none inv).SourceType = SourceType.sbom) :
    (∀ s, ext.toPURL = Option.some s →
      (FromInventory toPackage inv).purlCache
        = Option.some (toPackage s).fst ∧
      (FromInventory toPackage inv).Name = (toPackage s).fst.name ∧
      (FromInventory toPackage inv).Version = (toPackage s).fst.version ∧
      (FromInventory toPackage inv).Ecosystem
        = (ecosystemParse (toPackage s).fst.ecosystem).fst) ∧
    (ext.toPURL = Option.none →
      (FromInventory toPackage inv).purlCache = Option.none) := by
  constructor
  · intro s hs
    have hres : FromInventory toPackage inv
        = PackageInfo.mk (Option.some (toPackage s).fst) inv := by
      unfold FromInventory
      simp [hsbom, hext, hs]
    rw [hres]
    refine ⟨rfl, rfl, rfl, ?_⟩
    rw [ecosystem_eq_parse_fst]
    rfl
  · intro hs
    unfold FromInventory
    simp [hsbom, hext, hs]

theorem sbom_purl_cache_population_witness :
    sbomTestInv.extractor
      = Option.some
          { name := spdxExtractorName,
            toPURL := Option.some "pkg:badtype/foo@1.0.0" } ∧
    (FromInventory failingToPackage sbomTestInv).purlCache
      = Option.some ⟨"", "", ""⟩ ∧
    (FromInventory okToPackage sbomTestInv).Name = "left-pad" :=
  ⟨rfl,
   ((sbom_purl_cache_population failingToPackage sbomTestInv
       { name := spdxExtractorName,
         toPURL := Option.some "pkg:badtype/foo@1.0.0" }
       rfl rfl).1 "pkg:badtype/foo@1.0.0" rfl).1,
   ((sbom_purl_cache_population okToPackage sbomTestInv
       { name := spdxExtractorName,
         toPURL := Option.some "pkg:badtype/foo@1.0.0" }
       rfl rfl).1 "pkg:badtype/foo@1.0.0" rfl).2.1⟩

/-- C2: Name resolves by exactly one of the six branches of the canonical-
name chain, tried in the fixed source order (override identity, Go module
self-reference, PyPI normalization, Java-archive pair, Debian source or
Alpine origin name, raw-name fallback): some branch fires whose guard holds
while every earlier guard fails, Name returns that branch's value, and the
firing branch is unique. -/
theorem name_resolution_unique_branch (pkg : PackageInfo) :
    ∃ i : Nat, i < 6 ∧
      (nameGuard pkg i ∧ ∀ j, j < i → ¬ nameGuard pkg j) ∧
      pkg.Name = nameValue pkg i ∧
      (∀ k, k < 6 → nameGuard pkg k → (∀ j, j < k → ¬ nameGuard pkg j) →
        k = i) := by
  rcases pkg with ⟨pc, inv⟩
  cases pc with
  | some pc0 =>
    refine ⟨0, by omega, ⟨by simp [nameGuard], fun j hj => absurd hj (by omega)⟩,
      by simp [PackageInfo.Name, nameValue], ?_⟩
    intro k hk6 hgk hmin
    exact firesAt_unique (nameGuard ⟨Option.some pc0, inv⟩) 0 k
      (by simp [nameGuard]) (fun j hj => absurd hj (by omega)) hgk hmin
  | none =>
    have hg0 : ¬ nameGuard (PackageInfo.mk Option.none inv) 0 := by
      simp [nameGuard]
    by_cases h1 : (PackageInfo.mk Option.none inv).Ecosystem.ecosystem = "Go"
        ∧ inv.name = "go"
    · have hmin : ∀ j, j < 1 → ¬ nameGuard (PackageInfo.mk Option.none inv) j := by
        intro j hj
        interval_cases j
        exact hg0
      refine ⟨1, by omega, ⟨h1, hmin⟩,
        by simp [PackageInfo.Name, nameValue, if_pos h1], ?_⟩
      intro k hk6 hgk hmink
      exact firesAt_unique (nameGuard ⟨Option.none, inv⟩) 1 k h1 hmin hgk hmink
    · by_cases h2 : (PackageInfo.mk Option.none inv).Ecosystem.ecosystem = "PyPI"
      · have hmin : ∀ j, j < 2 → ¬ nameGuard (PackageInfo.mk Option.none inv) j := by
          intro j hj
          interval_cases j
          · exact hg0
          · exact h1
        refine ⟨2, by omega, ⟨h2, hmin⟩,
          by simp [PackageInfo.Name, nameValue, if_neg h1, if_pos h2], ?_⟩
        intro k hk6 hgk hmink
        exact firesAt_unique (nameGuard ⟨Option.none, inv⟩) 2 k h2 hmin hgk hmink
      · cases hm : inv.metadata with
        | archiveMeta aid gid =>
          by_cases h3 : aid ≠ "" ∧ gid ≠ ""
          · have hg3 : nameGuard (PackageInfo.mk Option.none inv) 3 := by
              simp [nameGuard, hm]
              exact h3
            have hmin : ∀ j, j < 3 → ¬ nameGuard (PackageInfo.mk Option.none inv) j := by
              intro j hj
              interval_cases j
              · exact hg0
              · exact h1
              · exact h2
            refine ⟨3, by omega, ⟨hg3, hmin⟩, ?_, ?_⟩
            · simp [PackageInfo.Name, nameValue, if_neg h1, if_neg h2, hm, h3]
            · intro k hk6 hgk hmink
              exact firesAt_unique (nameGuard ⟨Option.none, inv⟩) 3 k hg3 hmin hgk hmink
          · have hg3 : ¬ nameGuard (PackageInfo.mk Option.none inv) 3 := by
              simp only [nameGuard, hm]
              exact h3
            have hg4 : ¬ nameGuard (PackageInfo.mk Option.none inv) 4 := by
              simp [nameGuard, hm]
            have hmin : ∀ j, j < 5 → ¬ nameGuard (PackageInfo.mk Option.none inv) j := by
              intro j hj
              interval_cases j
              · exact hg0
              · exact h1
              · exact h2
              · exact hg3
              · exact hg4
            refine ⟨5, by omega, ⟨trivial, hmin⟩, ?_, ?_⟩
            · simp [PackageInfo.Name, nameValue, if_neg h1, if_neg h2, hm, h3]
            · intro k hk6 hgk hmink
              exact firesAt_unique (nameGuard ⟨Option.none, inv⟩) 5 k trivial hmin hgk hmink
        | dpkgMeta pn sn =>
          by_cases h4 : sn ≠ ""
          · have hg4 : nameGuard (PackageInfo.mk Option.none inv) 4 := by
              simp [nameGuard, hm]
              exact h4
            have hg3 : ¬ nameGuard (PackageInfo.mk Option.none inv) 3 := by
              simp [nameGuard, hm]
            have hmin : ∀ j, j < 4 → ¬ nameGuard (PackageInfo.mk Option.none inv) j := by
              intro j hj
              interval_cases j
              · exact hg0
              · exact h1
              · exact h2
              · exact hg3
            refine ⟨4, by omega, ⟨hg4, hmin⟩, ?_, ?_⟩
            · simp [PackageInfo.Name, nameValue, if_neg h1, if_neg h2, hm, h4]
            · intro k hk6 hgk hmink
              exact firesAt_unique (nameGuard ⟨Option.none, inv⟩) 4 k hg4 hmin hgk hmink
          · have hg3 : ¬ nameGuard (PackageInfo.mk Option.none inv) 3 := by
              simp [nameGuard, hm]
            have hg4 : ¬ nameGuard (PackageInfo.mk Option.none inv) 4 := by
              simp only [nameGuard, hm]
              exact h4
            have hmin : ∀ j, j < 5 → ¬ nameGuard (PackageInfo.mk Option.none inv) j := by
              intro j hj
              interval_cases j
              · exact hg0
              · exact h1
              · exact h2
              · exact hg3
              · exact hg4
            refine ⟨5, by omega, ⟨trivial, hmin⟩, ?_, ?_⟩
            · simp [PackageInfo.Name, nameValue, if_neg h1, if_neg h2, hm, h4]
            · intro k hk6 hgk hmink
              exact firesAt_unique (nameGuard ⟨Option.none, inv⟩) 5 k trivial hmin hgk hmink
        | apkMeta pn orig =>
          by_cases h4 : orig ≠ ""
          · have hg4 : nameGuard (PackageInfo.mk Option.none inv) 4 := by
              simp [nameGuard, hm]
              exact h4
            have hg3 : ¬ nameGuard (PackageInfo.mk Option.none inv) 3 := by
              simp [nameGuard, hm]
            have hmin : ∀ j, j < 4 → ¬ nameGuard (PackageInfo.mk Option.none inv) j := by
              intro j hj
              interval_cases j
              · exact hg0
              · exact h1
              · exact h2
              · exact hg3
            refine ⟨4, by omega, ⟨hg4, hmin⟩, ?_, ?_⟩
            · simp [PackageInfo.Name, nameValue, if_neg h1, if_neg h2, hm, h4]
            · intro k hk6 hgk hmink
              exact firesAt_unique (nameGuard ⟨Option.none, inv⟩) 4 k hg4 hmin hgk hmink
          · have hg3 : ¬ nameGuard (PackageInfo.mk Option.none inv) 3 := by
              simp [nameGuard, hm]
            have hg4 : ¬ nameGuard (PackageInfo.mk Option.none inv) 4 := by
              simp only [nameGuard, hm]
              exact h4
            have hmin : ∀ j, j < 5 → ¬ nameGuard (PackageInfo.mk Option.none inv) j := by
              intro j hj
              interval_cases j
              · exact hg0
              · exact h1
              · exact h2
              · exact hg3
              · exact hg4
            refine ⟨5, by omega, ⟨trivial, hmin⟩, ?_, ?_⟩
            · simp [PackageInfo.Name, nameValue, if_neg h1, if_neg h2, hm, h4]
            · intro k hk6 hgk hmink
              exact firesAt_unique (nameGuard ⟨Option.none, inv⟩) 5 k trivial hmin hgk hmink
        | noMetadata =>
          have hg3 : ¬ nameGuard (PackageInfo.mk Option.none inv) 3 := by
            simp [nameGuard, hm]
          have hg4 : ¬ nameGuard (PackageInfo.mk Option.none inv) 4 := by
            simp [nameGuard, hm]
          have hmin : ∀ j, j < 5 → ¬ nameGuard (PackageInfo.mk Option.none inv) j := by
            intro j hj
            interval_cases j
            · exact hg0
            · exact h1
            · exact h2
            · exact hg3
            · exact hg4
          refine ⟨5, by omega, ⟨trivial, hmin⟩, ?_, ?_⟩
          · simp [PackageInfo.Name, nameValue, if_neg h1, if_neg h2, hm]
          · intro k hk6 hgk hmink
            exact firesAt_unique (nameGuard ⟨Option.none, inv⟩) 5 k trivial hmin hgk hmink
        | rpmMeta pn =>
          have hg3 : ¬ nameGuard (PackageInfo.mk Option.none inv) 3 := by
            simp [nameGuard, hm]
          have hg4 : ¬ nameGuard (PackageInfo.mk Option.none inv) 4 := by
            simp [nameGuard, hm]
          have hmin : ∀ j, j < 5 → ¬ nameGuard (PackageInfo.mk Option.none inv) j := by
            intro j hj
            interval_cases j
            · exact hg0
            · exact h1
            · exact h2
            · exact hg3
            · exact hg4
          refine ⟨5, by omega, ⟨trivial, hmin⟩, ?_, ?_⟩
          · simp [PackageInfo.Name, nameValue, if_neg h1, if_neg h2, hm]
          · intro k hk6 hgk hmink
            exact firesAt_unique (nameGuard ⟨Option.none, inv⟩) 5 k trivial hmin hgk hmink
        | depGroupsMeta groups =>
          have hg3 : ¬ nameGuard (PackageInfo.mk Option.none inv) 3 := by
            simp [nameGuard, hm]
          have hg4 : ¬ nameGuard (PackageInfo.mk Option.none inv) 4 := by
            simp [nameGuard, hm]
          have hmin : ∀ j, j < 5 → ¬ nameGuard (PackageInfo.mk Option.none inv) j := by
            intro j hj
            interval_cases j
            · exact hg0
            · exact h1
            · exact h2
            · exact hg3
            · exact hg4
          refine ⟨5, by omega, ⟨trivial, hmin⟩, ?_, ?_⟩
          · simp [PackageInfo.Name, nameValue, if_neg h1, if_neg h2, hm]
          · intro k hk6 hgk hmink
            exact firesAt_unique (nameGuard ⟨Option.none, inv⟩) 5 k trivial hmin hgk hmink

theorem name_resolution_unique_branch_witness :
    ∃ i : Nat, i < 6 ∧
      (nameGuard debianPkg i ∧ ∀ j, j < i → ¬ nameGuard debianPkg j) ∧
      debianPkg.Name = nameValue debianPkg i ∧
      (∀ k, k < 6 → nameGuard debianPkg k →
        (∀ j, j < k → ¬ nameGuard debianPkg j) → k = i) :=
  name_resolution_unique_branch debianPkg
